import Mathlib

/-!
Shallow embedding of the `stereo-img` custom element (src/stereo-img.js) and
its `VRButton` helper (src/unnamed/part_000), for verifying the repository's
natural-language specification.

Modelling conventions:
* DOM attribute values are `Option String` (`none` = attribute absent / null).
* JavaScript string truthiness is `truthyStr` (null and the empty string are falsy).
* `setTimeout` timers are explicit state: a pending timer record plus a
  `timerFire` step that may only deliver once the scheduled delay has elapsed
  (`performance.now()` instants are `Nat` milliseconds).
* Raycast results (`raycaster.intersectObjects`) are abstracted to the list of
  `object.parent.name` values of the hits, `none` standing for a hit whose
  object or parent is missing.
* Scene-graph objects keep only the fields the code sets that are relevant to
  observable behaviour (geometry parameters, texture source, layer, rotation);
  rendering-engine internals (materials, colors, texture upload flags) are
  owned by the external engine and not modelled.
-/

namespace StereoImg

/-- Event name dispatched when the backward (prev) dwell completes. -/
def evGoToPrev : String := "stereoImgGoToPrev"

/-- Event name dispatched when the forward (next) dwell completes. -/
def evGoToNext : String := "stereoImgGoToNext"

/-- Name of the prev button group in the scene graph. -/
def namePrev : String := "prev"

/-- Name of the next button group in the scene graph. -/
def nameNext : String := "next"

/-- Dwell timeout constant `PREV_NEXT_TIMEOUT_MS` from stereo-img.js. -/
def PREV_NEXT_TIMEOUT_MS : Nat := 1000

/-- JavaScript truthiness of a nullable string: null and the empty string are falsy. -/
def truthyStr (v : Option String) : Bool :=
  match v with
  | none => false
  | some s => s != ""

/-- A pending `setTimeout` registered by `prevNextTest`: its delay and the name
of the DOM event its callback will dispatch. -/
structure PNTimer where
  delayMS : Nat
  eventName : String
deriving DecidableEq

/-- The element state touched by `prevNextTest` / `updatePrevNextRing`:
the pending dwell timer (`this.prevNextTimer`), the direction flag
(`this.timerRingForPrev`) and the dwell start instant
(`this.prevNextTimerStartMS`). -/
structure PNState where
  prevNextTimer : Option PNTimer
  timerRingForPrev : Bool
  prevNextTimerStartMS : Nat
deriving DecidableEq

/-- Initial element state: no dwell timer pending. -/
def pnInit : PNState :=
  { prevNextTimer := none, timerRingForPrev := false, prevNextTimerStartMS := 0 }

/-- The `if (!this.prevNextTimer) { this.prevNextTimerStartMS = performance.now();
this.prevNextTimer = setTimeout(...) }` block shared by the prev and next
branches of `prevNextTest`; `now` is `performance.now()`. -/
def startTimer (s : PNState) (now : Nat) (ev : String) : PNState :=
  if s.prevNextTimer.isNone then
    { s with
      prevNextTimerStartMS := now,
      prevNextTimer := some { delayMS := PREV_NEXT_TIMEOUT_MS, eventName := ev } }
  else s

/-- The `for` loop of `prevNextTest` over the raycast hits: a hit whose object
or parent is missing (`none`) aborts the whole function; a hit on the group
named prev (next) records the ring direction and starts the dwell timer if
none is pending; other hits are skipped. -/
def runIntersects (now : Nat) : List (Option String) → PNState → PNState
  | [], s => s
  | none :: _, s => s
  | some parentName :: rest, s =>
    if parentName = namePrev then
      runIntersects now rest (startTimer { s with timerRingForPrev := true } now evGoToPrev)
    else if parentName = nameNext then
      runIntersects now rest (startTimer { s with timerRingForPrev := false } now evGoToNext)
    else
      runIntersects now rest s

/-- `StereoImg.prevNextTest`. `ready` is the guard
`this.scene && this.camera && this.raycaster && this.prevNextButtons`;
`intersects` is the result of raycasting from the camera position along the
camera's world direction against the prev/next button groups. -/
def prevNextTest (ready : Bool) (now : Nat) (intersects : List (Option String))
    (s : PNState) : PNState :=
  if !ready then s
  else if intersects.isEmpty && s.prevNextTimer.isSome then
    { s with prevNextTimer := none }
  else
    runIntersects now intersects s

/-- Delivery of a pending dwell timer at instant `now`: the browser fires the
`setTimeout` callback no earlier than the scheduled delay after the timer was
started; the callback clears the timer state and dispatches its event.
Returns the new state and the list of DOM events dispatched. -/
def timerFire (now : Nat) (s : PNState) : PNState × List String :=
  match s.prevNextTimer with
  | none => (s, [])
  | some t =>
    if s.prevNextTimerStartMS + t.delayMS ≤ now then
      ({ s with prevNextTimer := none }, [t.eventName])
    else
      (s, [])

/-- One step of the element's dwell subsystem: an animation-loop call of
`prevNextTest`, or the firing of the pending timeout. -/
inductive PNStep where
  | test (ready : Bool) (now : Nat) (intersects : List (Option String))
  | fire (now : Nat)

/-- Run a sequence of dwell-subsystem steps, collecting every DOM event
dispatched along the way. -/
def pnRun : PNState → List PNStep → PNState × List String
  | s, [] => (s, [])
  | s, PNStep.test r now ints :: rest => pnRun (prevNextTest r now ints s) rest
  | s, PNStep.fire now :: rest =>
    let fired := timerFire now s
    let tail := pnRun fired.1 rest
    (tail.1, fired.2 ++ tail.2)

/-! ### VRButton (src/unnamed/part_000) -/

/-- Button label while no immersive session is active. -/
def textEnterVR : String := "View in 3D VR"

/-- Button label while an immersive session is active. -/
def textExitVR : String := "Exit VR"

/-- WebXR session mode requested by the button's click handler. -/
def modeImmersiveVR : String := "immersive-vr"

/-- Warning logged by `showVRNotAllowed` when `isSessionSupported` rejects. -/
def warnSessionSupport : String := "Exception when trying to call xr.isSessionSupported"

/-- The closure state of `showEnterVR`: the captured `currentSession`
(sessions are identified by a `Nat`) and the button's `textContent`. -/
structure VRState where
  currentSession : Option Nat
  textContent : String
deriving DecidableEq

/-- Events driving `showEnterVR`: a button click, resolution of
`requestSession` (running `onSessionStarted`), and the session's end event
(running `onSessionEnded`). -/
inductive VREvent where
  | click
  | sessionStarted (sid : Nat)
  | sessionEnded

/-- Externally observable actions of the click handler. -/
inductive VRAction where
  | requestSession (mode : String)
  | endSession
deriving DecidableEq

/-- State right after `showEnterVR` runs: `currentSession = null` and the
label set to `textEnterVR`. -/
def showEnterVRInit : VRState :=
  { currentSession := none, textContent := textEnterVR }

/-- Transition function of `showEnterVR`: `onclick` requests an immersive-vr
session when no session is active and otherwise ends the current one;
`onSessionStarted` stores the session and sets the exit label;
`onSessionEnded` clears the session and restores the enter label. -/
def vrStep : VRState → VREvent → VRState × List VRAction
  | s, VREvent.click =>
    if s.currentSession = none then (s, [VRAction.requestSession modeImmersiveVR])
    else (s, [VRAction.endSession])
  | _, VREvent.sessionStarted sid =>
    ({ currentSession := some sid, textContent := textExitVR }, [])
  | _, VREvent.sessionEnded =>
    ({ currentSession := none, textContent := textEnterVR }, [])

/-- Capability outcomes `VRButton.createButton` can encounter: `navigator`
has no `xr` member (with the secure-context flag), `isSessionSupported`
resolved true, resolved false, or rejected. -/
inductive XRCapability where
  | noXR (secureContext : Bool)
  | supported
  | notSupported
  | rejected
deriving DecidableEq

/-- The returned DOM element, reduced to the fields the code sets. -/
structure DomElement where
  tag : String
  display : String
  textContent : String
  hasOnClick : Bool
  hasOnMouseEnter : Bool
  hasOnMouseLeave : Bool
deriving DecidableEq

/-- Result of `VRButton.createButton`: the element it returns, the console
warnings it logs, and whether it auto-clicked the button (granted session). -/
structure CreateButtonResult where
  element : DomElement
  warnings : List String
  clicked : Bool
deriving DecidableEq

/-- Message shown (hidden) when WebXR is missing on an insecure origin. -/
def msgNeedsHTTPS : String := "VR Mode Requires HTTPS"

/-- Message shown (hidden) when WebXR is missing on a secure origin. -/
def msgUnavailable : String := "VR Mode Unavailable (?)"

/-- Tag of a button element. -/
def tagButton : String := "button"

/-- Tag of an anchor element. -/
def tagAnchor : String := "a"

/-- CSS display value hiding an element. -/
def displayNone : String := "none"

/-- CSS display value (empty string) restoring the default display. -/
def displayDefault : String := ""

/-- `VRButton.createButton` as a function of the capability outcome and the
`VRButton.xrSessionIsGranted` flag. With no `xr` in navigator the anchor
fallback is returned hidden; with support, `showEnterVR` shows the button
with the enter label and a click handler; with no support,
`showWebXRNotFound` disables the button; on rejection `showVRNotAllowed`
disables the button and logs a warning. `onmouseenter` / `onmouseleave` are
never assigned and are nulled by `disableButton`. -/
def createButton (cap : XRCapability) (xrSessionIsGranted : Bool) : CreateButtonResult :=
  match cap with
  | XRCapability.noXR secureContext =>
    { element :=
        { tag := tagAnchor, display := displayNone,
          textContent := if secureContext then msgUnavailable else msgNeedsHTTPS,
          hasOnClick := false, hasOnMouseEnter := false, hasOnMouseLeave := false },
      warnings := [], clicked := false }
  | XRCapability.supported =>
    { element :=
        { tag := tagButton, display := displayDefault, textContent := textEnterVR,
          hasOnClick := true, hasOnMouseEnter := false, hasOnMouseLeave := false },
      warnings := [], clicked := xrSessionIsGranted }
  | XRCapability.notSupported =>
    { element :=
        { tag := tagButton, display := displayNone, textContent := displayDefault,
          hasOnClick := false, hasOnMouseEnter := false, hasOnMouseLeave := false },
      warnings := [], clicked := false }
  | XRCapability.rejected =>
    { element :=
        { tag := tagButton, display := displayNone, textContent := displayDefault,
          hasOnClick := false, hasOnMouseEnter := false, hasOnMouseLeave := false },
      warnings := [warnSessionSupport], clicked := false }

/-! ### Attributes and element state (src/stereo-img.js accessors) -/

/-- Attribute value of `angle` selecting the half-sphere back-image branch. -/
def angle180 : String := "180"

/-- `type` attribute value selecting the VR-photo parser. -/
def typeVR : String := "vr"

/-- `type` attribute value for side-by-side stereo. -/
def typeLeftRight : String := "left-right"

/-- `type` attribute value for stacked stereo. -/
def typeTopBottom : String := "top-bottom"

/-- `type` attribute value for anaglyph images. -/
def typeAnaglyph : String := "anaglyph"

/-- The element's four persistent DOM attributes. -/
structure Attrs where
  type : Option String
  angle : Option String
  src : Option String
  backImageSrc : Option String
deriving DecidableEq

/-- Getter of the `type` property: `this.getAttribute('type')`. -/
def typeGet (a : Attrs) : Option String := a.type

/-- Setter of the `type` property: a truthy value is stored with
`setAttribute`, a falsy one removes the attribute. -/
def typeSet (a : Attrs) (v : Option String) : Attrs :=
  if truthyStr v then { a with type := v } else { a with type := none }

/-- Getter of the `angle` property. -/
def angleGet (a : Attrs) : Option String := a.angle

/-- Setter of the `angle` property. -/
def angleSet (a : Attrs) (v : Option String) : Attrs :=
  if truthyStr v then { a with angle := v } else { a with angle := none }

/-- Getter of the `backImageSrc` property. -/
def backImageSrcGet (a : Attrs) : Option String := a.backImageSrc

/-- Camera position set by `this.camera?.position.set(0, 0, 0.1)`. -/
def cameraResetPos : ℚ × ℚ × ℚ := (0, 0, 1/10)

/-- Element state for the property setters: the attributes, the parsed
`stereoData` (type `σ`), the constructed scene (type `τ`), the camera
position when a camera exists, and whether a
`parseImageAndInitialize3DScene` call has been scheduled via `setTimeout`. -/
structure ElemState (σ τ : Type) where
  attrs : Attrs
  stereoData : σ
  sceneMeshes : τ
  cameraPos : Option (ℚ × ℚ × ℚ)
  pendingParse : Bool
deriving DecidableEq

/-- Getter of the `src` property. -/
def srcGet {σ τ : Type} (st : ElemState σ τ) : Option String := st.attrs.src

/-- Setter of the `src` property: when the new value equals the current
attribute it only resets the camera position and returns; otherwise it
updates or removes the attribute and schedules a re-parse (the `setTimeout`
body runs later, so `stereoData` and the scene are untouched here). -/
def srcSet {σ τ : Type} (st : ElemState σ τ) (v : Option String) : ElemState σ τ :=
  if st.attrs.src = v then
    { st with cameraPos := st.cameraPos.map (fun _ => cameraResetPos) }
  else if truthyStr v then
    { st with attrs := { st.attrs with src := v }, pendingParse := true }
  else
    { st with attrs := { st.attrs with src := none }, pendingParse := true }

/-- Setter of the `backImageSrc` property: updates or removes the attribute
and schedules a re-parse unconditionally. -/
def backImageSrcSet {σ τ : Type} (st : ElemState σ τ) (v : Option String) :
    ElemState σ τ :=
  if truthyStr v then
    { st with attrs := { st.attrs with backImageSrc := v }, pendingParse := true }
  else
    { st with attrs := { st.attrs with backImageSrc := none }, pendingParse := true }

/-! ### parse (src/stereo-img.js) -/

/-- Warning logged when no `type` attribute is set and the image carries no
VR XMP metadata. -/
def warnNoXMP : String := "<stereo-img> does not have a \"type\" attribute and image does not have XMP metadata of a VR picture.  Use \"type\" attribute to specify the type of stereoscopic image. Assuming left-right stereo image."

/-- A browser `ImageData`: `new ImageData(w, h)` is blank (all RGBA bytes 0). -/
structure ImageData where
  width : Nat
  height : Nat
  data : List Nat
deriving DecidableEq

/-- `new ImageData(w, h)`. -/
def mkImageData (w h : Nat) : ImageData :=
  { width := w, height := h, data := List.replicate (w * h * 4) 0 }

/-- The `stereoData` record consumed by `initialize3DScene`; eye images have
type `ε` (an `ImageData` for the fallback, parser output otherwise). `roll`
and `pitch` are optional; angles are rationals standing for radians. -/
structure StereoData (ε : Type) where
  leftEye : ε
  rightEye : ε
  phiLength : ℚ
  thetaStart : ℚ
  thetaLength : ℚ
  roll : Option ℚ
  pitch : Option ℚ
deriving DecidableEq

/-- The fixed fallback `stereoData` used when the element has no truthy
`src`: fresh blank 10x10 eyes and zero angular extents. -/
def fallbackStereoData : StereoData ImageData :=
  { leftEye := mkImageData 10 10, rightEye := mkImageData 10 10,
    phiLength := 0, thetaStart := 0, thetaLength := 0,
    roll := none, pitch := none }

/-- Where `parse` sends the image: computed directly (fallback), or
delegated to one of the external parsers with the given arguments. -/
inductive ParseResult where
  | direct (sd : StereoData ImageData)
  | delegatedVR (src : String)
  | delegatedStereo (src : String) (type : Option String) (angle : Option String)
  | delegatedAnaglyph (src : String) (angle : Option String)
deriving DecidableEq

/-- External accesses `parse` performs: fetching/decoding the image (done by
every delegated parser) and reading EXIF/XMP metadata. -/
inductive ExternalAccess where
  | fetchImage (url : String)
  | readExif (url : String)
deriving DecidableEq

/-- Outcome of `parse`: the resulting stereo data (or delegation), the
external accesses made, and the console warnings logged. -/
structure ParseOutcome where
  result : ParseResult
  accesses : List ExternalAccess
  warnings : List String
deriving DecidableEq

/-- `StereoImg.parse` as a function of the `src` / `type` / `angle`
attributes. `exifHasGImageData` abstracts whether the EXIF/XMP metadata of
the image contains `GImage.Data` (left-eye XMP). With a falsy `src` the
fixed fallback data is used with no external access. -/
def parse (src ty angle : Option String) (exifHasGImageData : Bool) : ParseOutcome :=
  if truthyStr src then
    let u := src.getD ""
    if ty = some typeVR then
      { result := ParseResult.delegatedVR u,
        accesses := [ExternalAccess.fetchImage u], warnings := [] }
    else if ty = some typeLeftRight ∨ ty = some typeTopBottom then
      { result := ParseResult.delegatedStereo u ty angle,
        accesses := [ExternalAccess.fetchImage u], warnings := [] }
    else if ty = some typeAnaglyph then
      { result := ParseResult.delegatedAnaglyph u angle,
        accesses := [ExternalAccess.fetchImage u], warnings := [] }
    else if exifHasGImageData then
      { result := ParseResult.delegatedVR u,
        accesses := [ExternalAccess.readExif u, ExternalAccess.fetchImage u],
        warnings := [] }
    else
      { result := ParseResult.delegatedStereo u none angle,
        accesses := [ExternalAccess.readExif u, ExternalAccess.fetchImage u],
        warnings := [warnNoXMP] }
  else
    { result := ParseResult.direct fallbackStereoData,
      accesses := [], warnings := [] }

/-! ### initialize3DScene (src/stereo-img.js) -/

/-- `EPSILON_PHI_LENGTH = 0.025`, widening the back-image sphere on each
side to remove the seam between the images. -/
def EPSILON_PHI_LENGTH : ℚ := 1/40

/-- Rotation order set by `mesh.rotation.reorder('YXZ')`. -/
def rotOrderYXZ : String := "YXZ"

/-- Parameters of a `THREE.SphereGeometry` as constructed here, together
with whether `geometry.scale(-1, 1, 1)` was applied (x-axis mirroring so the
faces point inward). -/
structure SphereGeom where
  radius : ℚ
  widthSegments : Nat
  heightSegments : Nat
  phiStart : ℚ
  phiLength : ℚ
  thetaStart : ℚ
  thetaLength : ℚ
  scaledMinusX : Bool
deriving DecidableEq

/-- Texture source of a mesh: one of the stereo eyes, or the separately
loaded back image. -/
inductive TexSource (ε : Type) where
  | fromEye (e : ε)
  | fromBackImage (src : String)
deriving DecidableEq

/-- A scene mesh, reduced to the fields the code sets. `rotYHalfPi` is the
`rotation.y` value as an integer multiple of `Math.PI / 2` (kept rational);
`rotX` / `rotZ` are the radian values `roll || 0` / `pitch || 0`. -/
structure Mesh (ε : Type) where
  geom : SphereGeom
  tex : TexSource ε
  layer : Nat
  rotOrder : String
  rotYHalfPi : Int
  rotX : ℚ
  rotZ : ℚ
deriving DecidableEq

/-- JavaScript `v || 0` on a possibly-missing numeric field (a missing value
and 0 both yield 0). -/
def jsOrZero (o : Option ℚ) : ℚ :=
  match o with
  | some x => x
  | none => 0

/-- Geometry of the two eye spheres: radius 10, 60x40 segments, `phiStart`
`-phiLength / 2`, and the extents from the stereo data, mirrored on x. -/
def eyeSphereGeom {ε : Type} (sd : StereoData ε) : SphereGeom :=
  { radius := 10, widthSegments := 60, heightSegments := 40,
    phiStart := -1 * sd.phiLength / 2, phiLength := sd.phiLength,
    thetaStart := sd.thetaStart, thetaLength := sd.thetaLength,
    scaledMinusX := true }

/-- Geometry of the back-image sphere: the eye geometry widened by
`EPSILON_PHI_LENGTH` on each side to hide the seam. -/
def backSphereGeom {ε : Type} (sd : StereoData ε) : SphereGeom :=
  { radius := 10, widthSegments := 60, heightSegments := 40,
    phiStart := -1 * sd.phiLength / 2 - EPSILON_PHI_LENGTH,
    phiLength := sd.phiLength + 2 * EPSILON_PHI_LENGTH,
    thetaStart := sd.thetaStart, thetaLength := sd.thetaLength,
    scaledMinusX := true }

/-- The left-eye mesh (`mesh1`): left-eye texture, layer 1. -/
def leftEyeMesh {ε : Type} (sd : StereoData ε) : Mesh ε :=
  { geom := eyeSphereGeom sd, tex := TexSource.fromEye sd.leftEye, layer := 1,
    rotOrder := rotOrderYXZ, rotYHalfPi := 1,
    rotX := jsOrZero sd.roll, rotZ := jsOrZero sd.pitch }

/-- The right-eye mesh (`mesh2`): right-eye texture, layer 2. -/
def rightEyeMesh {ε : Type} (sd : StereoData ε) : Mesh ε :=
  { geom := eyeSphereGeom sd, tex := TexSource.fromEye sd.rightEye, layer := 2,
    rotOrder := rotOrderYXZ, rotYHalfPi := 1,
    rotX := jsOrZero sd.roll, rotZ := jsOrZero sd.pitch }

/-- The back-image mesh (`mesh3`): back-image texture, layer 0, rotated the
opposite way. -/
def backImageMesh {ε : Type} (sd : StereoData ε) (backSrc : String) : Mesh ε :=
  { geom := backSphereGeom sd, tex := TexSource.fromBackImage backSrc, layer := 0,
    rotOrder := rotOrderYXZ, rotYHalfPi := -1,
    rotX := jsOrZero sd.roll, rotZ := jsOrZero sd.pitch }

/-- `StereoImg.initialize3DScene`: the meshes added to the fresh scene, in
order. The back-image mesh is added exactly when the `angle` attribute is
`"180"` and `backImageSrc` is truthy. -/
def initialize3DScene {ε : Type} (sd : StereoData ε) (angle backImageSrc : Option String) :
    List (Mesh ε) :=
  if angle = some angle180 ∧ truthyStr backImageSrc = true then
    [leftEyeMesh sd, rightEyeMesh sd, backImageMesh sd (backImageSrc.getD "")]
  else
    [leftEyeMesh sd, rightEyeMesh sd]

/-! ### clamp / linearScale and the dwell progress ring -/

/-- `clamp(val, min, max) = Math.min(Math.max(val, min), max)`. -/
def clamp {α : Type} [LinearOrder α] (val mn mx : α) : α :=
  min (max val mn) mx

/-- `linearScale(factor, minInput, maxInput, minOutput, maxOutput, shouldClamp)`. -/
def linearScale {α : Type} [LinearOrderedField α]
    (factor minInput maxInput minOutput maxOutput : α) (shouldClamp : Bool) : α :=
  let f := if shouldClamp then clamp factor minInput maxInput else factor
  minOutput + (maxOutput - minOutput) * (f - minInput) / (maxInput - minInput)

/-- Sweep angle (`thetaLength`) of the dwell progress ring built by
`updatePrevNextRing`: `linearScale(timeSinceStartedMS, 0, PREV_NEXT_TIMEOUT_MS,
0, timerRingForPrev ? Math.PI * 2 : -Math.PI * 2)`, with the value of
`Math.PI` passed as `piVal` so the definition stays in an abstract ordered
field. -/
def ringSweep {α : Type} [LinearOrderedField α] (timeSinceStartedMS : α)
    (timerRingForPrev : Bool) (piVal : α) : α :=
  linearScale timeSinceStartedMS 0 (PREV_NEXT_TIMEOUT_MS : α) 0
    (if timerRingForPrev then piVal * 2 else -(piVal * 2)) true

/-! ### Auxiliary definitions for stating and instantiating the claims -/

/-- Scene-graph group name of the prev (`true`) or next (`false`) button. -/
def buttonName (isPrev : Bool) : String :=
  if isPrev then namePrev else nameNext

/-- DOM event a completed dwell on the prev (`true`) or next (`false`)
button dispatches. -/
def buttonEvent (isPrev : Bool) : String :=
  if isPrev then evGoToPrev else evGoToNext

/-- Invariant of the dwell subsystem: any pending timer will dispatch one of
the two navigation events. -/
def TimerEventOK (s : PNState) : Prop :=
  ∀ t, s.prevNextTimer = some t → t.eventName = evGoToPrev ∨ t.eventName = evGoToNext

/-- Name of the unnamed inner `THREE.Group` holding the SVG arrow meshes of
a button (`new THREE.Group()` leaves `name` as the empty string), as seen in
`intersects[i].object.parent.name` when the gaze hits the arrow glyph. -/
def nameInnerGroup : String := ""

/-- The button hit that the `for` loop of `prevNextTest` acts on: scanning
the raycast hits in order, a hit with a missing object or parent stops the
scan, hits on groups named neither prev nor next fall through, and the
first hit on a prev- or next-named group is returned. -/
def firstButtonHit : List (Option String) → Option String
  | [] => none
  | none :: _ => none
  | some n :: rest =>
    if n = namePrev ∨ n = nameNext then some n else firstButtonHit rest

/-- Sample back-image URL used to instantiate theorems. -/
def bxSample : String := "back.jpeg"

/-- Sample image URL used to instantiate theorems. -/
def srcSample : String := "photo.jpg"

/-- Sample element state used to instantiate theorems. -/
def stSample : ElemState Unit Unit :=
  { attrs := { type := none, angle := none, src := some srcSample, backImageSrc := none },
    stereoData := (), sceneMeshes := (), cameraPos := some (1, 2, 3), pendingParse := false }

/-- Sample dwell state with a pending prev timer, used to instantiate theorems. -/
def sPending : PNState :=
  { prevNextTimer := some { delayMS := PREV_NEXT_TIMEOUT_MS, eventName := evGoToPrev },
    timerRingForPrev := true, prevNextTimerStartMS := 0 }

/-! ## Helper lemmas about the dwell subsystem -/

theorem startTimer_of_some (s : PNState) (now : Nat) (ev : String) (t : PNTimer)
    (h : s.prevNextTimer = some t) : startTimer s now ev = s := by
  simp [startTimer, h]

theorem startTimer_of_none (s : PNState) (now : Nat) (ev : String)
    (h : s.prevNextTimer = none) :
    startTimer s now ev =
      { s with prevNextTimerStartMS := now,
               prevNextTimer := some { delayMS := PREV_NEXT_TIMEOUT_MS, eventName := ev } } := by
  simp [startTimer, h]

theorem runIntersects_pending (ints : List (Option String)) :
    ∀ (s : PNState) (now : Nat) (t : PNTimer), s.prevNextTimer = some t →
      runIntersects now ints s = { s with timerRingForPrev := true } ∨
      runIntersects now ints s = { s with timerRingForPrev := false } := by
  induction ints with
  | nil =>
    intro s now t _
    rcases s with ⟨tm, ring, st⟩
    cases ring
    · right; rfl
    · left; rfl
  | cons x rest ih =>
    intro s now t h
    cases x with
    | none =>
      rcases s with ⟨tm, ring, st⟩
      cases ring
      · right; rfl
      · left; rfl
    | some n =>
      by_cases hp : n = namePrev
      · simp only [runIntersects]
        rw [if_pos hp,
          startTimer_of_some { s with timerRingForPrev := true } now evGoToPrev t h]
        exact ih { s with timerRingForPrev := true } now t h
      · by_cases hq : n = nameNext
        · simp only [runIntersects]
          rw [if_neg hp, if_pos hq,
            startTimer_of_some { s with timerRingForPrev := false } now evGoToNext t h]
          exact ih { s with timerRingForPrev := false } now t h
        · simp only [runIntersects]
          rw [if_neg hp, if_neg hq]
          exact ih s now t h

theorem runIntersects_timer_of_some (ints : List (Option String)) (s : PNState) (now : Nat)
    (t : PNTimer) (h : s.prevNextTimer = some t) :
    (runIntersects now ints s).prevNextTimer = some t ∧
    (runIntersects now ints s).prevNextTimerStartMS = s.prevNextTimerStartMS := by
  rcases runIntersects_pending ints s now t h with h1 | h1 <;> rw [h1] <;> exact ⟨h, rfl⟩

theorem runIntersects_absorb (b : Bool) (ints : List (Option String)) :
    ∀ (s : PNState) (now : Nat), (∀ x ∈ ints, x = some (buttonName b)) →
      s.prevNextTimer.isSome = true → s.timerRingForPrev = b →
      runIntersects now ints s = s := by
  induction ints with
  | nil => intro s now _ _ _; rfl
  | cons x rest ih =>
    intro s now hall hsome hring
    have hx : x = some (buttonName b) := hall x (List.mem_cons_self x rest)
    have hrest : ∀ y ∈ rest, y = some (buttonName b) := fun y hy =>
      hall y (List.mem_cons_of_mem x hy)
    obtain ⟨t, ht⟩ := Option.isSome_iff_exists.mp hsome
    have hupd : { s with timerRingForPrev := b } = s := by
      rcases s with ⟨tm, ring, st⟩
      cases hring
      rfl
    subst hx
    cases b with
    | true =>
      simp only [runIntersects]
      rw [if_pos (show buttonName true = namePrev from rfl),
        startTimer_of_some { s with timerRingForPrev := true } now evGoToPrev t ht]
      rw [show ({ s with timerRingForPrev := true } : PNState) = s from hupd]
      exact ih s now hrest hsome hring
    | false =>
      simp only [runIntersects]
      rw [if_neg (show ¬buttonName false = namePrev by decide),
        if_pos (show buttonName false = nameNext from rfl),
        startTimer_of_some { s with timerRingForPrev := false } now evGoToNext t ht]
      rw [show ({ s with timerRingForPrev := false } : PNState) = s from hupd]
      exact ih s now hrest hsome hring

theorem runIntersects_start (b : Bool) (ints : List (Option String)) (s : PNState) (now : Nat)
    (hne : ints ≠ []) (hall : ∀ x ∈ ints, x = some (buttonName b))
    (h : s.prevNextTimer = none) :
    runIntersects now ints s =
      { s with
        timerRingForPrev := b,
        prevNextTimerStartMS := now,
        prevNextTimer := some { delayMS := PREV_NEXT_TIMEOUT_MS, eventName := buttonEvent b } } := by
  cases ints with
  | nil => exact absurd rfl hne
  | cons x rest =>
    have hx : x = some (buttonName b) := hall x (List.mem_cons_self x rest)
    have hrest : ∀ y ∈ rest, y = some (buttonName b) := fun y hy =>
      hall y (List.mem_cons_of_mem x hy)
    subst hx
    cases b with
    | true =>
      simp only [runIntersects]
      rw [if_pos (show buttonName true = namePrev from rfl),
        startTimer_of_none { s with timerRingForPrev := true } now evGoToPrev h]
      exact runIntersects_absorb true rest _ now hrest rfl rfl
    | false =>
      simp only [runIntersects]
      rw [if_neg (show ¬buttonName false = namePrev by decide),
        if_pos (show buttonName false = nameNext from rfl),
        startTimer_of_none { s with timerRingForPrev := false } now evGoToNext h]
      exact runIntersects_absorb false rest _ now hrest rfl rfl

theorem runIntersects_creation (ints : List (Option String)) :
    ∀ (s : PNState) (now : Nat), s.prevNextTimer = none →
      ∀ t, (runIntersects now ints s).prevNextTimer = some t →
        t.delayMS = PREV_NEXT_TIMEOUT_MS ∧
        (t.eventName = evGoToPrev ∨ t.eventName = evGoToNext) ∧
        (runIntersects now ints s).prevNextTimerStartMS = now ∧
        (some namePrev ∈ ints ∨ some nameNext ∈ ints) := by
  induction ints with
  | nil =>
    intro s now h t ht
    simp only [runIntersects] at ht
    rw [h] at ht
    cases ht
  | cons x rest ih =>
    intro s now h t ht
    cases x with
    | none =>
      simp only [runIntersects] at ht
      rw [h] at ht
      cases ht
    | some n =>
      by_cases hp : n = namePrev
      · subst hp
        simp only [runIntersects] at ht ⊢
        rw [if_pos trivial] at ht ⊢
        rw [startTimer_of_none { s with timerRingForPrev := true } now evGoToPrev h] at ht ⊢
        have hpair := runIntersects_timer_of_some rest
          { s with
            timerRingForPrev := true
            prevNextTimerStartMS := now
            prevNextTimer := some { delayMS := PREV_NEXT_TIMEOUT_MS, eventName := evGoToPrev } }
          now { delayMS := PREV_NEXT_TIMEOUT_MS, eventName := evGoToPrev } rfl
        have hteq : ({ delayMS := PREV_NEXT_TIMEOUT_MS, eventName := evGoToPrev } : PNTimer) = t := by
          have h2 : (some { delayMS := PREV_NEXT_TIMEOUT_MS, eventName := evGoToPrev } :
              Option PNTimer) = some t := Eq.trans hpair.1.symm ht
          exact Option.some.inj h2
        refine ⟨?_, ?_, ?_, ?_⟩
        · rw [← hteq]
        · left; rw [← hteq]
        · exact hpair.2
        · left; exact List.mem_cons_self _ _
      · by_cases hq : n = nameNext
        · subst hq
          simp only [runIntersects] at ht ⊢
          rw [if_neg hp, if_pos trivial] at ht ⊢
          rw [startTimer_of_none { s with timerRingForPrev := false } now evGoToNext h] at ht ⊢
          have hpair := runIntersects_timer_of_some rest
            { s with
              timerRingForPrev := false
              prevNextTimerStartMS := now
              prevNextTimer := some { delayMS := PREV_NEXT_TIMEOUT_MS, eventName := evGoToNext } }
            now { delayMS := PREV_NEXT_TIMEOUT_MS, eventName := evGoToNext } rfl
          have hteq : ({ delayMS := PREV_NEXT_TIMEOUT_MS, eventName := evGoToNext } : PNTimer) = t := by
            have h2 : (some { delayMS := PREV_NEXT_TIMEOUT_MS, eventName := evGoToNext } :
                Option PNTimer) = some t := Eq.trans hpair.1.symm ht
            exact Option.some.inj h2
          refine ⟨?_, ?_, ?_, ?_⟩
          · rw [← hteq]
          · right; rw [← hteq]
          · exact hpair.2
          · right; exact List.mem_cons_self _ _
        · simp only [runIntersects] at ht ⊢
          rw [if_neg hp, if_neg hq] at ht ⊢
          rcases ih s now h t ht with ⟨h1, h2, h3, h4⟩
          refine ⟨h1, h2, h3, ?_⟩
          rcases h4 with h4 | h4
          · left; exact List.mem_cons_of_mem _ h4
          · right; exact List.mem_cons_of_mem _ h4

theorem runIntersects_first_button (ints : List (Option String)) :
    ∀ (s : PNState) (now : Nat), s.prevNextTimer = none →
      ∀ n, firstButtonHit ints = some n →
        (n = namePrev ∨ n = nameNext) ∧
        (runIntersects now ints s).prevNextTimer =
          some { delayMS := PREV_NEXT_TIMEOUT_MS,
                 eventName := if n = namePrev then evGoToPrev else evGoToNext } ∧
        (runIntersects now ints s).prevNextTimerStartMS = now := by
  induction ints with
  | nil => intro s now _ n hn; exact Option.noConfusion hn
  | cons x rest ih =>
    intro s now h n hn
    cases x with
    | none => exact Option.noConfusion hn
    | some m =>
      by_cases hb : m = namePrev ∨ m = nameNext
      · have hmn : m = n := by
          have hfb : firstButtonHit (some m :: rest) = some m := by
            simp [firstButtonHit, hb]
          rw [hfb] at hn
          exact Option.some.inj hn
        subst hmn
        rcases hb with hbp | hbn
        · refine ⟨Or.inl hbp, ?_⟩
          simp only [runIntersects]
          rw [if_pos hbp, if_pos hbp]
          rw [startTimer_of_none { s with timerRingForPrev := true } now evGoToPrev h]
          have hpair := runIntersects_timer_of_some rest
            { s with
              timerRingForPrev := true
              prevNextTimerStartMS := now
              prevNextTimer := some { delayMS := PREV_NEXT_TIMEOUT_MS, eventName := evGoToPrev } }
            now { delayMS := PREV_NEXT_TIMEOUT_MS, eventName := evGoToPrev } rfl
          exact ⟨hpair.1, hpair.2⟩
        · have hnp : ¬m = namePrev := by
            rw [hbn]
            decide
          refine ⟨Or.inr hbn, ?_⟩
          simp only [runIntersects]
          rw [if_neg hnp, if_pos hbn, if_neg hnp]
          rw [startTimer_of_none { s with timerRingForPrev := false } now evGoToNext h]
          have hpair := runIntersects_timer_of_some rest
            { s with
              timerRingForPrev := false
              prevNextTimerStartMS := now
              prevNextTimer := some { delayMS := PREV_NEXT_TIMEOUT_MS, eventName := evGoToNext } }
            now { delayMS := PREV_NEXT_TIMEOUT_MS, eventName := evGoToNext } rfl
          exact ⟨hpair.1, hpair.2⟩
      · have hfb : firstButtonHit (some m :: rest) = firstButtonHit rest := by
          simp [firstButtonHit, hb]
        rw [hfb] at hn
        have hnp : ¬m = namePrev := fun hh => hb (Or.inl hh)
        have hnn : ¬m = nameNext := fun hh => hb (Or.inr hh)
        simp only [runIntersects]
        rw [if_neg hnp, if_neg hnn]
        exact ih s now h n hn

theorem prevNextTest_run (now : Nat) (ints : List (Option String)) (s : PNState)
    (h : ints ≠ [] ∨ s.prevNextTimer = none) :
    prevNextTest true now ints s = runIntersects now ints s := by
  rcases h with h | h
  · cases ints with
    | nil => exact absurd rfl h
    | cons x rest => simp [prevNextTest]
  · simp [prevNextTest, h]

theorem prevNextTest_pending (s : PNState) (now : Nat) (ints : List (Option String))
    (t : PNTimer) (h : s.prevNextTimer = some t) :
    (prevNextTest true now ints s).prevNextTimer = none ∨
    (prevNextTest true now ints s).prevNextTimer = some t := by
  cases ints with
  | nil =>
    left
    simp [prevNextTest, h]
  | cons x rest =>
    right
    rw [prevNextTest_run now (x :: rest) s (Or.inl (by simp))]
    exact (runIntersects_timer_of_some (x :: rest) s now t h).1

theorem startTimer_eventOK (s : PNState) (now : Nat) (ev : String)
    (hs : TimerEventOK s) (hev : ev = evGoToPrev ∨ ev = evGoToNext) :
    TimerEventOK (startTimer s now ev) := by
  intro t ht
  unfold startTimer at ht
  by_cases h : s.prevNextTimer.isNone
  · rw [if_pos h] at ht
    have h2 : ({ delayMS := PREV_NEXT_TIMEOUT_MS, eventName := ev } : PNTimer) = t :=
      Option.some.inj ht
    rw [← h2]
    exact hev
  · rw [if_neg h] at ht
    exact hs t ht

theorem runIntersects_eventOK (ints : List (Option String)) :
    ∀ (s : PNState) (now : Nat), TimerEventOK s → TimerEventOK (runIntersects now ints s) := by
  induction ints with
  | nil => intro s now hs; exact hs
  | cons x rest ih =>
    intro s now hs
    cases x with
    | none => exact hs
    | some n =>
      by_cases hp : n = namePrev
      · simp only [runIntersects]
        rw [if_pos hp]
        exact ih _ now (startTimer_eventOK { s with timerRingForPrev := true } now evGoToPrev hs
          (Or.inl rfl))
      · by_cases hq : n = nameNext
        · simp only [runIntersects]
          rw [if_neg hp, if_pos hq]
          exact ih _ now (startTimer_eventOK { s with timerRingForPrev := false } now evGoToNext hs
            (Or.inr rfl))
        · simp only [runIntersects]
          rw [if_neg hp, if_neg hq]
          exact ih s now hs

theorem prevNextTest_eventOK (r : Bool) (now : Nat) (ints : List (Option String))
    (s : PNState) (hs : TimerEventOK s) : TimerEventOK (prevNextTest r now ints s) := by
  unfold prevNextTest
  split
  · exact hs
  · split
    · intro t ht
      exact Option.noConfusion ht
    · exact runIntersects_eventOK ints s now hs

theorem timerFire_of_none (now : Nat) (s : PNState) (h : s.prevNextTimer = none) :
    timerFire now s = (s, []) := by
  unfold timerFire
  rw [h]

theorem timerFire_evidence (now : Nat) (s : PNState) (h : (timerFire now s).2 ≠ []) :
    ∃ t, s.prevNextTimer = some t ∧ s.prevNextTimerStartMS + t.delayMS ≤ now ∧
      timerFire now s = ({ s with prevNextTimer := none }, [t.eventName]) := by
  rcases hs : s.prevNextTimer with _ | t
  · rw [timerFire_of_none now s hs] at h
    exact absurd rfl h
  · by_cases hle : s.prevNextTimerStartMS + t.delayMS ≤ now
    · refine ⟨t, rfl, hle, ?_⟩
      simp [timerFire, hs, hle]
    · exfalso
      apply h
      simp [timerFire, hs, hle]

theorem timerFire_eventOK (now : Nat) (s : PNState) (hs : TimerEventOK s) :
    TimerEventOK (timerFire now s).1 ∧
    ∀ e ∈ (timerFire now s).2, e = evGoToPrev ∨ e = evGoToNext := by
  rcases h : s.prevNextTimer with _ | t
  · rw [timerFire_of_none now s h]
    exact ⟨hs, by simp⟩
  · by_cases hle : s.prevNextTimerStartMS + t.delayMS ≤ now
    · have heq : timerFire now s = ({ s with prevNextTimer := none }, [t.eventName]) := by
        simp [timerFire, h, hle]
      rw [heq]
      constructor
      · intro t2 ht2
        exact Option.noConfusion ht2
      · intro e he
        rw [List.mem_singleton] at he
        rw [he]
        exact hs t h
    · have heq : timerFire now s = (s, []) := by
        simp [timerFire, h, hle]
      rw [heq]
      exact ⟨hs, by simp⟩

theorem pnRun_events (steps : List PNStep) :
    ∀ s : PNState, TimerEventOK s →
      ∀ e ∈ (pnRun s steps).2, e = evGoToPrev ∨ e = evGoToNext := by
  induction steps with
  | nil => intro s _ e he; simp [pnRun] at he
  | cons step rest ih =>
    intro s hs e he
    cases step with
    | test r now ints =>
      exact ih (prevNextTest r now ints s) (prevNextTest_eventOK r now ints s hs) e he
    | fire now =>
      have hfk := timerFire_eventOK now s hs
      have hmem : e ∈ (timerFire now s).2 ++ (pnRun (timerFire now s).1 rest).2 := he
      rw [List.mem_append] at hmem
      rcases hmem with hmem | hmem
      · exact hfk.2 e hmem
      · exact ih (timerFire now s).1 hfk.1 e hmem

/-! ## Helper lemmas about clamp / linearScale -/

theorem clamp_le_max {α : Type} [LinearOrderedField α] (f minI maxI : α) (h : minI ≤ maxI) :
    minI ≤ clamp f minI maxI ∧ clamp f minI maxI ≤ maxI := by
  unfold clamp
  exact ⟨le_min (le_max_right f minI) h, min_le_right _ _⟩

theorem linearScale_clamped_eq {α : Type} [LinearOrderedField α]
    (f minI maxI minO maxO : α) :
    linearScale f minI maxI minO maxO true =
      minO + (maxO - minO) * ((clamp f minI maxI - minI) / (maxI - minI)) := by
  simp [linearScale, mul_div_assoc]

theorem linearScale_between {α : Type} [LinearOrderedField α]
    (f minI maxI minO maxO : α) (h : minI < maxI) :
    min minO maxO ≤ linearScale f minI maxI minO maxO true ∧
    linearScale f minI maxI minO maxO true ≤ max minO maxO := by
  obtain ⟨hc1, hc2⟩ := clamp_le_max f minI maxI h.le
  have hd : (0 : α) < maxI - minI := sub_pos.mpr h
  have ht0 : (0 : α) ≤ (clamp f minI maxI - minI) / (maxI - minI) :=
    div_nonneg (sub_nonneg.mpr hc1) hd.le
  have ht1 : (clamp f minI maxI - minI) / (maxI - minI) ≤ 1 :=
    (div_le_one hd).mpr (by linarith)
  rw [linearScale_clamped_eq]
  rcases le_total minO maxO with hle | hle
  · rw [min_eq_left hle, max_eq_right hle]
    constructor
    · nlinarith
    · nlinarith
  · rw [min_eq_right hle, max_eq_left hle]
    constructor
    · nlinarith
    · nlinarith

theorem linearScale_at_min {α : Type} [LinearOrderedField α]
    (f minI maxI minO maxO : α) (h : minI < maxI) (hf : f ≤ minI) :
    linearScale f minI maxI minO maxO true = minO := by
  have hc : clamp f minI maxI = minI := by
    unfold clamp
    rw [max_eq_right hf, min_eq_left h.le]
  rw [linearScale_clamped_eq, hc]
  simp

theorem linearScale_at_max {α : Type} [LinearOrderedField α]
    (f minI maxI minO maxO : α) (h : minI < maxI) (hf : maxI ≤ f) :
    linearScale f minI maxI minO maxO true = maxO := by
  have hd : maxI - minI ≠ 0 := sub_ne_zero.mpr (ne_of_gt h)
  have hc : clamp f minI maxI = maxI := by
    unfold clamp
    rw [max_eq_left (le_trans h.le hf), min_eq_right hf]
  rw [linearScale_clamped_eq, hc, div_self hd]
  ring

theorem linearScale_mono {α : Type} [LinearOrderedField α]
    (f1 f2 minI maxI minO maxO : α) (h : minI < maxI) (hf : f1 ≤ f2) :
    (minO ≤ maxO →
      linearScale f1 minI maxI minO maxO true ≤ linearScale f2 minI maxI minO maxO true) ∧
    (maxO ≤ minO →
      linearScale f2 minI maxI minO maxO true ≤ linearScale f1 minI maxI minO maxO true) := by
  have hd : (0 : α) < maxI - minI := sub_pos.mpr h
  have hc : clamp f1 minI maxI ≤ clamp f2 minI maxI := by
    unfold clamp
    exact min_le_min (max_le_max hf le_rfl) le_rfl
  have ht : (clamp f1 minI maxI - minI) / (maxI - minI) ≤
      (clamp f2 minI maxI - minI) / (maxI - minI) := by
    apply div_le_div_of_nonneg_right ?_ hd.le
    linarith
  constructor
  · intro hle
    rw [linearScale_clamped_eq, linearScale_clamped_eq]
    nlinarith
  · intro hle
    rw [linearScale_clamped_eq, linearScale_clamped_eq]
    nlinarith

/-! ## Claim theorems -/

/-- Claim C1: in every animation step in which the gaze raycast intersects
the button group named prev (respectively next) — that is, the first
prev/next-named hit in the scan order of the loop is prev (resp. next),
with other hits such as the unnamed inner SVG-glyph group falling through —
and no dwell timer is pending, `prevNextTest` starts a timer of
`PREV_NEXT_TIMEOUT_MS = 1000` ms at `now` whose expiry clears the timer
state and dispatches exactly one `stereoImgGoToPrev` (respectively
`stereoImgGoToNext`) DOM event; while a timer is already pending no second
timer is started. -/
theorem c1_gaze_dwell_navigation (s : PNState) (now after : Nat)
    (ints : List (Option String)) :
    PREV_NEXT_TIMEOUT_MS = 1000
    ∧ (s.prevNextTimer = none → firstButtonHit ints = some namePrev →
        (prevNextTest true now ints s).prevNextTimer =
          some { delayMS := PREV_NEXT_TIMEOUT_MS, eventName := evGoToPrev }
        ∧ (prevNextTest true now ints s).prevNextTimerStartMS = now
        ∧ (now + PREV_NEXT_TIMEOUT_MS ≤ after →
            timerFire after (prevNextTest true now ints s) =
              ({ prevNextTest true now ints s with prevNextTimer := none }, [evGoToPrev])))
    ∧ (s.prevNextTimer = none → firstButtonHit ints = some nameNext →
        (prevNextTest true now ints s).prevNextTimer =
          some { delayMS := PREV_NEXT_TIMEOUT_MS, eventName := evGoToNext }
        ∧ (prevNextTest true now ints s).prevNextTimerStartMS = now
        ∧ (now + PREV_NEXT_TIMEOUT_MS ≤ after →
            timerFire after (prevNextTest true now ints s) =
              ({ prevNextTest true now ints s with prevNextTimer := none }, [evGoToNext])))
    ∧ (∀ t, s.prevNextTimer = some t →
        (prevNextTest true now ints s).prevNextTimer = none ∨
        (prevNextTest true now ints s).prevNextTimer = some t) := by
  refine ⟨rfl, ?_, ?_, ?_⟩
  · intro h hfb
    have hrun := prevNextTest_run now ints s (Or.inr h)
    have hgen := runIntersects_first_button ints s now h namePrev hfb
    have h1 : (prevNextTest true now ints s).prevNextTimer =
        some { delayMS := PREV_NEXT_TIMEOUT_MS, eventName := evGoToPrev } := by
      rw [hrun]
      have hx := hgen.2.1
      rw [if_pos rfl] at hx
      exact hx
    have h2 : (prevNextTest true now ints s).prevNextTimerStartMS = now := by
      rw [hrun]
      exact hgen.2.2
    refine ⟨h1, h2, ?_⟩
    intro hle
    simp [timerFire, h1, h2, hle]
  · intro h hfb
    have hrun := prevNextTest_run now ints s (Or.inr h)
    have hgen := runIntersects_first_button ints s now h nameNext hfb
    have h1 : (prevNextTest true now ints s).prevNextTimer =
        some { delayMS := PREV_NEXT_TIMEOUT_MS, eventName := evGoToNext } := by
      rw [hrun]
      have hx := hgen.2.1
      rw [if_neg (show ¬nameNext = namePrev by decide)] at hx
      exact hx
    have h2 : (prevNextTest true now ints s).prevNextTimerStartMS = now := by
      rw [hrun]
      exact hgen.2.2
    refine ⟨h1, h2, ?_⟩
    intro hle
    simp [timerFire, h1, h2, hle]
  · intro t ht
    exact prevNextTest_pending s now ints t ht

/-- Witness for C1 at a concrete mixed step: from the initial state, a hit
on the unnamed SVG-glyph group followed by a hit on the prev group starts
the 1000 ms prev timer. -/
theorem c1_gaze_dwell_navigation_witness :
    pnInit.prevNextTimer = none ∧
    firstButtonHit [some nameInnerGroup, some namePrev] = some namePrev ∧
    (prevNextTest true 0 [some nameInnerGroup, some namePrev] pnInit).prevNextTimer =
      some { delayMS := PREV_NEXT_TIMEOUT_MS, eventName := evGoToPrev } := by
  refine ⟨rfl, by decide, ?_⟩
  exact ((c1_gaze_dwell_navigation pnInit 0 PREV_NEXT_TIMEOUT_MS
    [some nameInnerGroup, some namePrev]).2.1 rfl (by decide)).1

/-- Claim C6: in every animation step where a dwell timer is pending and
the gaze hits neither button group, `prevNextTest` clears the pending timer
and sets it to null; a cleared timer never dispatches; an event is only
dispatched by an expired pending timer; and a timer only becomes pending in
a step whose raycast hits the prev or next group, with the full 1000 ms
delay ahead of it. -/
theorem c6_gaze_away_cancels_dwell (s : PNState) (now : Nat) :
    (∀ t, s.prevNextTimer = some t →
      prevNextTest true now [] s = { s with prevNextTimer := none })
    ∧ (∀ s2 : PNState, s2.prevNextTimer = none → timerFire now s2 = (s2, []))
    ∧ (∀ s2 : PNState, (timerFire now s2).2 ≠ [] →
        ∃ t, s2.prevNextTimer = some t ∧ s2.prevNextTimerStartMS + t.delayMS ≤ now ∧
          timerFire now s2 = ({ s2 with prevNextTimer := none }, [t.eventName]))
    ∧ (∀ (ints : List (Option String)) t2, s.prevNextTimer = none →
        (prevNextTest true now ints s).prevNextTimer = some t2 →
          t2.delayMS = PREV_NEXT_TIMEOUT_MS ∧
          (prevNextTest true now ints s).prevNextTimerStartMS = now ∧
          (some namePrev ∈ ints ∨ some nameNext ∈ ints)) := by
  refine ⟨?_, ?_, ?_, ?_⟩
  · intro t ht
    simp [prevNextTest, ht]
  · intro s2 h2
    exact timerFire_of_none now s2 h2
  · intro s2 h2
    exact timerFire_evidence now s2 h2
  · intro ints t2 h h2
    rw [prevNextTest_run now ints s (Or.inr h)] at h2 ⊢
    exact
      ⟨(runIntersects_creation ints s now h t2 h2).1,
       (runIntersects_creation ints s now h t2 h2).2.2.1,
       (runIntersects_creation ints s now h t2 h2).2.2.2⟩

/-- Witness for C6 at a concrete step: a pending prev timer is cleared by a
step whose raycast hits nothing. -/
theorem c6_gaze_away_cancels_dwell_witness :
    sPending.prevNextTimer = some { delayMS := PREV_NEXT_TIMEOUT_MS, eventName := evGoToPrev } ∧
    prevNextTest true 5 [] sPending = { sPending with prevNextTimer := none } :=
  ⟨rfl, (c6_gaze_away_cancels_dwell sPending 5).1 _ rfl⟩

/-- Claim C7: across every run of the dwell subsystem from the initial
state, the only DOM events ever dispatched are `stereoImgGoToPrev` and
`stereoImgGoToNext`. -/
theorem c7_only_two_events (steps : List PNStep) :
    ∀ e ∈ (pnRun pnInit steps).2, e = evGoToPrev ∨ e = evGoToNext :=
  pnRun_events steps pnInit (fun _ ht => Option.noConfusion ht)

/-- Witness for C7 at a concrete run that dispatches an event. -/
theorem c7_only_two_events_witness :
    evGoToNext ∈ (pnRun pnInit
      [PNStep.test true 0 [some nameNext], PNStep.fire PREV_NEXT_TIMEOUT_MS]).2 ∧
    (evGoToNext = evGoToPrev ∨ evGoToNext = evGoToNext) :=
  ⟨by decide,
   c7_only_two_events [PNStep.test true 0 [some nameNext], PNStep.fire PREV_NEXT_TIMEOUT_MS]
     evGoToNext (by decide)⟩

/-- Claim C2: for the button shown by `showEnterVR` (the capability-positive
branch of `VRButton.createButton`), `currentSession` is null exactly when the
button text is `View in 3D VR`; this invariant holds initially and is
preserved by every event; clicking with no session requests an immersive-vr
session; clicking with a session ends it; session start sets `Exit VR` and
stores the session; the session's end event restores the enter label and
nulls the session. -/
theorem c2_vr_button_toggle :
    (showEnterVRInit.currentSession = none ↔ showEnterVRInit.textContent = textEnterVR)
    ∧ (∀ (s : VRState) (e : VREvent),
        (s.currentSession = none ↔ s.textContent = textEnterVR) →
        ((vrStep s e).1.currentSession = none ↔ (vrStep s e).1.textContent = textEnterVR))
    ∧ (∀ s : VRState, s.currentSession = none →
        vrStep s VREvent.click = (s, [VRAction.requestSession modeImmersiveVR]))
    ∧ (∀ (s : VRState) (sid : Nat), s.currentSession = some sid →
        vrStep s VREvent.click = (s, [VRAction.endSession]))
    ∧ (∀ (s : VRState) (sid : Nat),
        vrStep s (VREvent.sessionStarted sid) =
          ({ currentSession := some sid, textContent := textExitVR }, []))
    ∧ (∀ s : VRState,
        vrStep s VREvent.sessionEnded =
          ({ currentSession := none, textContent := textEnterVR }, [])) := by
  refine ⟨⟨fun _ => rfl, fun _ => rfl⟩, ?_, ?_, ?_, fun s sid => rfl, fun s => rfl⟩
  · intro s e hInv
    cases e with
    | click =>
      have h1 : (vrStep s VREvent.click).1 = s := by
        simp only [vrStep]
        split <;> rfl
      rw [h1]
      exact hInv
    | sessionStarted sid =>
      constructor
      · intro hx
        exact Option.noConfusion hx
      · intro hx
        exact absurd hx (show textExitVR ≠ textEnterVR by decide)
    | sessionEnded =>
      exact ⟨fun _ => rfl, fun _ => rfl⟩
  · intro s h
    simp [vrStep, h]
  · intro s sid h
    simp [vrStep, h]

/-- Witness for C2 at the initial state: the first click requests an
immersive-vr session. -/
theorem c2_vr_button_toggle_witness :
    vrStep showEnterVRInit VREvent.click =
      (showEnterVRInit, [VRAction.requestSession modeImmersiveVR]) :=
  c2_vr_button_toggle.2.2.1 showEnterVRInit rfl

/-- Claim C3: for every capability outcome other than support (no `xr` in
navigator, `isSessionSupported` resolving false, or rejecting),
`VRButton.createButton` either returns its element hidden with null
onclick / onmouseenter / onmouseleave handlers, or logs a console warning,
and does nothing else (in particular it never auto-clicks). -/
theorem c3_failure_handling (cap : XRCapability) (g : Bool)
    (h : cap ≠ XRCapability.supported) :
    (((createButton cap g).element.display = displayNone
      ∧ (createButton cap g).element.hasOnClick = false
      ∧ (createButton cap g).element.hasOnMouseEnter = false
      ∧ (createButton cap g).element.hasOnMouseLeave = false)
     ∨ (createButton cap g).warnings ≠ [])
    ∧ (createButton cap g).clicked = false := by
  cases cap with
  | noXR sec => exact ⟨Or.inl ⟨rfl, rfl, rfl, rfl⟩, rfl⟩
  | supported => exact absurd rfl h
  | notSupported => exact ⟨Or.inl ⟨rfl, rfl, rfl, rfl⟩, rfl⟩
  | rejected => exact ⟨Or.inl ⟨rfl, rfl, rfl, rfl⟩, rfl⟩

/-- Witness for C3 at the rejected capability outcome. -/
theorem c3_failure_handling_witness :
    (((createButton XRCapability.rejected false).element.display = displayNone
      ∧ (createButton XRCapability.rejected false).element.hasOnClick = false
      ∧ (createButton XRCapability.rejected false).element.hasOnMouseEnter = false
      ∧ (createButton XRCapability.rejected false).element.hasOnMouseLeave = false)
     ∨ (createButton XRCapability.rejected false).warnings ≠ [])
    ∧ (createButton XRCapability.rejected false).clicked = false :=
  c3_failure_handling XRCapability.rejected false (by decide)

/-- Claim C4: each of the `type`, `angle`, `src` and `backImageSrc`
properties reads back the same-named attribute (null when absent); each
setter stores a truthy value in the attribute and removes the attribute on
a falsy value, whatever the prior attribute state (for `src`, whenever the
new value differs from the current attribute). -/
theorem c4_attribute_accessors :
    (∀ a : Attrs, typeGet a = a.type ∧ angleGet a = a.angle ∧ backImageSrcGet a = a.backImageSrc)
    ∧ (∀ (σ τ : Type) (st : ElemState σ τ), srcGet st = st.attrs.src)
    ∧ (∀ (a : Attrs) (v : Option String),
        (truthyStr v = true → typeSet a v = { a with type := v })
        ∧ (truthyStr v = false → typeSet a v = { a with type := none }))
    ∧ (∀ (a : Attrs) (v : Option String),
        (truthyStr v = true → angleSet a v = { a with angle := v })
        ∧ (truthyStr v = false → angleSet a v = { a with angle := none }))
    ∧ (∀ (σ τ : Type) (st : ElemState σ τ) (v : Option String), st.attrs.src ≠ v →
        (truthyStr v = true → (srcSet st v).attrs = { st.attrs with src := v })
        ∧ (truthyStr v = false → (srcSet st v).attrs = { st.attrs with src := none }))
    ∧ (∀ (σ τ : Type) (st : ElemState σ τ) (v : Option String),
        (truthyStr v = true → (backImageSrcSet st v).attrs = { st.attrs with backImageSrc := v })
        ∧ (truthyStr v = false →
            (backImageSrcSet st v).attrs = { st.attrs with backImageSrc := none })) := by
  refine ⟨fun a => ⟨rfl, rfl, rfl⟩, fun σ τ st => rfl, ?_, ?_, ?_, ?_⟩
  · intro a v
    exact ⟨fun hv => by simp [typeSet, hv], fun hv => by simp [typeSet, hv]⟩
  · intro a v
    exact ⟨fun hv => by simp [angleSet, hv], fun hv => by simp [angleSet, hv]⟩
  · intro σ τ st v hne
    exact ⟨fun hv => by simp [srcSet, hne, hv], fun hv => by simp [srcSet, hne, hv]⟩
  · intro σ τ st v
    exact ⟨fun hv => by simp [backImageSrcSet, hv], fun hv => by simp [backImageSrcSet, hv]⟩

/-- Witness for C4: removing the `src` attribute of a sample element whose
attribute differs from the new value. -/
theorem c4_attribute_accessors_witness :
    (srcSet stSample none).attrs = { stSample.attrs with src := none } :=
  (c4_attribute_accessors.2.2.2.2.1 Unit Unit stSample none (by decide)).2 rfl

/-- Claim C5: for every stereo data, `initialize3DScene` adds a left-eye
mesh on layer 1 textured with `leftEye` and a right-eye mesh on layer 2
textured with `rightEye`, both with the same sphere geometry (radius 10,
`phiStart = -phiLength / 2`, and the extents from the stereo data) mirrored
on the x-axis; a mesh on layer 0 (the back image) is present if and only if
the `angle` attribute is `"180"` and `backImageSrc` is truthy. -/
theorem c5_scene_construction (ε : Type) (sd : StereoData ε) (angle back : Option String) :
    (∃ ml mr : Mesh ε,
      ml ∈ initialize3DScene sd angle back ∧ mr ∈ initialize3DScene sd angle back
      ∧ ml.layer = 1 ∧ ml.tex = TexSource.fromEye sd.leftEye
      ∧ mr.layer = 2 ∧ mr.tex = TexSource.fromEye sd.rightEye
      ∧ ml.geom = mr.geom
      ∧ ml.geom.radius = 10 ∧ ml.geom.phiStart = -1 * sd.phiLength / 2
      ∧ ml.geom.phiLength = sd.phiLength ∧ ml.geom.thetaStart = sd.thetaStart
      ∧ ml.geom.thetaLength = sd.thetaLength ∧ ml.geom.scaledMinusX = true)
    ∧ ((∃ m ∈ initialize3DScene sd angle back, m.layer = 0) ↔
        (angle = some angle180 ∧ truthyStr back = true))
    ∧ (∀ m ∈ initialize3DScene sd angle back, m.layer = 0 →
        m.tex = TexSource.fromBackImage (back.getD "")) := by
  have hml : leftEyeMesh sd ∈ initialize3DScene sd angle back := by
    unfold initialize3DScene
    split <;> simp
  have hmr : rightEyeMesh sd ∈ initialize3DScene sd angle back := by
    unfold initialize3DScene
    split <;> simp
  refine ⟨⟨leftEyeMesh sd, rightEyeMesh sd, hml, hmr, rfl, rfl, rfl, rfl, rfl, rfl, rfl,
    rfl, rfl, rfl, rfl⟩, ?_, ?_⟩
  · constructor
    · rintro ⟨m, hm, h0⟩
      by_cases hc : angle = some angle180 ∧ truthyStr back = true
      · exact hc
      · exfalso
        unfold initialize3DScene at hm
        rw [if_neg hc] at hm
        simp only [List.mem_cons, List.mem_singleton, List.not_mem_nil, or_false] at hm
        rcases hm with rfl | rfl
        · simp [leftEyeMesh] at h0
        · simp [rightEyeMesh] at h0
    · rintro ⟨h180, hbk⟩
      refine ⟨backImageMesh sd (back.getD ""), ?_, rfl⟩
      unfold initialize3DScene
      rw [if_pos ⟨h180, hbk⟩]
      simp
  · intro m hm h0
    by_cases hc : angle = some angle180 ∧ truthyStr back = true
    · unfold initialize3DScene at hm
      rw [if_pos hc] at hm
      simp only [List.mem_cons, List.mem_singleton, List.not_mem_nil, or_false] at hm
      rcases hm with rfl | rfl | rfl
      · simp [leftEyeMesh] at h0
      · simp [rightEyeMesh] at h0
      · rfl
    · unfold initialize3DScene at hm
      rw [if_neg hc] at hm
      simp only [List.mem_cons, List.mem_singleton, List.not_mem_nil, or_false] at hm
      rcases hm with rfl | rfl
      · simp [leftEyeMesh] at h0
      · simp [rightEyeMesh] at h0

/-- Witness for C5: with `angle = "180"` and a truthy back image, a layer-0
mesh is part of the constructed scene. -/
theorem c5_scene_construction_witness :
    ∃ m ∈ initialize3DScene fallbackStereoData (some angle180) (some bxSample),
      m.layer = 0 :=
  (c5_scene_construction ImageData fallbackStereoData (some angle180) (some bxSample)).2.1.mpr
    ⟨rfl, by decide⟩

/-- Claim C8: setting the `src` property to a value equal to the current
`src` attribute leaves the attributes, the parsed stereo data and the scene
unchanged and schedules no re-parse; the only effect is resetting the
camera position to `(0, 0, 0.1)` when a camera exists. -/
theorem c8_src_setter_noop (σ τ : Type) (st : ElemState σ τ) (v : Option String)
    (h : st.attrs.src = v) :
    srcSet st v = { st with cameraPos := st.cameraPos.map (fun _ => cameraResetPos) } := by
  unfold srcSet
  rw [if_pos h]

/-- Witness for C8 at a sample element state. -/
theorem c8_src_setter_noop_witness :
    srcSet stSample (some srcSample) =
      { stSample with cameraPos := stSample.cameraPos.map (fun _ => cameraResetPos) } :=
  c8_src_setter_noop Unit Unit stSample (some srcSample) rfl

/-- Claim C9: with no `src` attribute, `parse` performs no external access,
logs nothing, and yields the fixed fallback stereo data: fresh blank 10x10
eyes and `phiLength = thetaStart = thetaLength = 0`. -/
theorem c9_parse_fallback (ty angle : Option String) (exifHasGImageData : Bool) :
    parse none ty angle exifHasGImageData =
      { result := ParseResult.direct fallbackStereoData, accesses := [], warnings := [] }
    ∧ fallbackStereoData.leftEye = mkImageData 10 10
    ∧ fallbackStereoData.rightEye = mkImageData 10 10
    ∧ fallbackStereoData.phiLength = 0
    ∧ fallbackStereoData.thetaStart = 0
    ∧ fallbackStereoData.thetaLength = 0 :=
  ⟨rfl, rfl, rfl, rfl, rfl, rfl⟩

/-- Claim C10: with clamping enabled and `minInput < maxInput`,
`linearScale` stays between `minOutput` and `maxOutput` (in whichever order
they stand), equals `minOutput` for factors at or below `minInput` and
`maxOutput` for factors at or above `maxInput`, and is monotone in the
factor; consequently the dwell progress ring's sweep angle never exceeds
`2 * pi` in magnitude, for any elapsed time. -/
theorem c10_linear_scale_bounds :
    (∀ minInput maxInput minOutput maxOutput : ℚ, minInput < maxInput →
      (∀ factor : ℚ,
        min minOutput maxOutput ≤ linearScale factor minInput maxInput minOutput maxOutput true
        ∧ linearScale factor minInput maxInput minOutput maxOutput true ≤ max minOutput maxOutput)
      ∧ (∀ factor : ℚ, factor ≤ minInput →
          linearScale factor minInput maxInput minOutput maxOutput true = minOutput)
      ∧ (∀ factor : ℚ, maxInput ≤ factor →
          linearScale factor minInput maxInput minOutput maxOutput true = maxOutput)
      ∧ (∀ f1 f2 : ℚ, f1 ≤ f2 →
          (minOutput ≤ maxOutput →
            linearScale f1 minInput maxInput minOutput maxOutput true ≤
              linearScale f2 minInput maxInput minOutput maxOutput true)
          ∧ (maxOutput ≤ minOutput →
              linearScale f2 minInput maxInput minOutput maxOutput true ≤
                linearScale f1 minInput maxInput minOutput maxOutput true)))
    ∧ (∀ (elapsed : ℝ) (forPrev : Bool),
        |ringSweep elapsed forPrev Real.pi| ≤ 2 * Real.pi) := by
  constructor
  · intro minI maxI minO maxO h
    refine ⟨?_, ?_, ?_, ?_⟩
    · intro f
      exact linearScale_between f minI maxI minO maxO h
    · intro f hf
      exact linearScale_at_min f minI maxI minO maxO h hf
    · intro f hf
      exact linearScale_at_max f minI maxI minO maxO h hf
    · intro f1 f2 hf
      exact linearScale_mono f1 f2 minI maxI minO maxO h hf
  · intro elapsed b
    have hT : (0 : ℝ) < (PREV_NEXT_TIMEOUT_MS : ℝ) := by
      norm_num [PREV_NEXT_TIMEOUT_MS]
    have hpi : (0 : ℝ) ≤ Real.pi := Real.pi_nonneg
    cases b with
    | true =>
      have hb := linearScale_between elapsed 0 (PREV_NEXT_TIMEOUT_MS : ℝ) 0 (Real.pi * 2) hT
      rw [min_eq_left (by linarith), max_eq_right (by linarith)] at hb
      have hr : ringSweep elapsed true Real.pi =
          linearScale elapsed 0 (PREV_NEXT_TIMEOUT_MS : ℝ) 0 (Real.pi * 2) true := by
        simp [ringSweep]
      rw [hr, abs_le]
      constructor <;> linarith [hb.1, hb.2]
    | false =>
      have hb := linearScale_between elapsed 0 (PREV_NEXT_TIMEOUT_MS : ℝ) 0 (-(Real.pi * 2)) hT
      rw [min_eq_right (by linarith), max_eq_left (by linarith)] at hb
      have hr : ringSweep elapsed false Real.pi =
          linearScale elapsed 0 (PREV_NEXT_TIMEOUT_MS : ℝ) 0 (-(Real.pi * 2)) true := by
        simp [ringSweep]
      rw [hr, abs_le]
      constructor <;> linarith [hb.1, hb.2]

/-- Witness for C10: concrete bounds at half dwell over the range 0..1000
scaled to 0..7. -/
theorem c10_linear_scale_bounds_witness :
    min (0 : ℚ) 7 ≤ linearScale 500 0 1000 0 7 true ∧
    linearScale 500 0 1000 0 7 true ≤ max (0 : ℚ) 7 :=
  (c10_linear_scale_bounds.1 0 1000 0 7 (by norm_num)).1 500

end StereoImg
